import Mathlib

/-!
Verification development for `func-analyzer` (`src/func_analyzer/utils.py`).

The file embeds the two cores of the repository:
  * the type-annotation normalizer (`AnnotationCleaner`, `clean_annotation_ast`,
    `clean_annotation_pattern`, `clean_annotation_string`), and
  * the docstring parameter extractor (`parse_docstring_params`,
    `_parse_docstring_manual`, here `parse_docstring_manual`).

Python's `ast.parse` and the third-party `docstring_parser` library are
external collaborators of the core (spec section 6); they are modelled as
function parameters (`Option`-valued: `none` models the exception that the
source catches).  The concrete table `pyParse` below records, input by input,
what CPython's parser produces on the strings used in this development.

Regular expressions from the source are modelled by dedicated, executable
character-list scanners that reproduce the leftmost, non-overlapping
match-and-substitute semantics of `re.sub` / `re.finditer` for the specific
patterns appearing in the source (character classes are modelled over ASCII,
which covers every input used here).
-/

/-! ## Character classes used by the regexes in utils.py -/

/-- Python regex class `\s` (ASCII range). -/
def wsChar (c : Char) : Bool :=
  c = ' ' || c = '\t' || c = '\n' || c = '\r' || c = '\x0b' || c = '\x0c'

/-- Python regex class `\w` / `[a-zA-Z0-9_]` (ASCII range). -/
def wordChar (c : Char) : Bool :=
  c.isAlpha || c.isDigit || c = '_'

/-- Regex class `[a-zA-Z_]`, the first character of the module part of
pattern 5 in `clean_annotation_pattern`. -/
def identStart (c : Char) : Bool :=
  c.isAlpha || c = '_'

/-! ## Python `str.strip` -/

/-- Python `str.strip()`: remove leading and trailing whitespace. -/
def pyStrip (s : String) : String :=
  ⟨((s.data.dropWhile wsChar).reverse.dropWhile wsChar).reverse⟩

/-! ## Python constants and `repr` -/

/-- Escape one character the way CPython's `repr` escapes it inside a string
literal quoted with `q` (printable-ASCII fragment of the algorithm). -/
def pyEscapeChar (q : Char) (c : Char) : List Char :=
  if c = '\\' then ['\\', '\\']
  else if c = q then ['\\', q]
  else if c = '\n' then ['\\', 'n']
  else if c = '\r' then ['\\', 'r']
  else if c = '\t' then ['\\', 't']
  else [c]

/-- CPython `repr` of a `str` value: single quotes, unless the value contains
a single quote and no double quote, in which case double quotes. -/
def pyReprStr (v : String) : String :=
  let q : Char := if v.data.contains '\'' && !(v.data.contains '"') then '"' else '\''
  ⟨q :: ((v.data.map (pyEscapeChar q)).flatten ++ [q])⟩

/-- The constant values that can appear in an annotation expression, together
with CPython's `repr` on them. -/
inductive PyConst where
  | pstr (v : String)
  | pint (n : Int)
  | pbool (b : Bool)
  | pnone
  deriving DecidableEq, Repr

/-- CPython `repr` on the modelled constants; `visit_Constant` appends
`repr(node.value)`. -/
def pyRepr : PyConst → String
  | .pstr v => pyReprStr v
  | .pint n => toString n
  | .pbool b => if b then "True" else "False"
  | .pnone => "None"

/-! ## The Python expression AST (the shapes relevant to the visitor) -/

/-- Abstract syntax of a parsed annotation expression, as produced by
`ast.parse(s, mode='eval').body`.  `tupleE` is a bare tuple node (it has no
dedicated visitor and is also the multi-argument form of a subscript slice);
`call` is a call node, which likewise has no dedicated visitor. -/
inductive PyAst where
  | name (id : String)
  | attribute (value : PyAst) (attr : String)
  | subscript (value : PyAst) (slice : PyAst)
  | tupleE (elts : List PyAst)
  | constant (c : PyConst)
  | binOp (left : PyAst) (isBitOr : Bool) (right : PyAst)
  | call (func : PyAst) (args : List PyAst)

mutual

/-- The `AnnotationCleaner` visitor of utils.py as a function: the string
obtained by joining the `result` list after `visit`.
  * `visit_Name` appends the identifier;
  * `visit_Attribute` appends only `node.attr` (it never visits the value);
  * `visit_Subscript` renders the value, `[`, the slice (comma-joined when the
    slice is a tuple), `]`;
  * `visit_Constant` appends `repr(node.value)`;
  * `visit_BinOp` renders left, ` | ` when the operator is `BitOr`, right;
  * nodes without a dedicated visitor (tuples outside a slice, calls) go
    through `generic_visit`, which visits the children in order with no
    separator. -/
def cleanAst : PyAst → String
  | .name i => i
  | .attribute _ a => a
  | .subscript v sl =>
      cleanAst v ++ "[" ++
        (match sl with
          | .tupleE es => cleanAstSep es
          | t => cleanAst t) ++ "]"
  | .tupleE es => cleanAstCat es
  | .constant c => pyRepr c
  | .binOp l isOr r => cleanAst l ++ (if isOr then " | " else "") ++ cleanAst r
  | .call f args => cleanAst f ++ cleanAstCat args

/-- Comma-space joined rendering of subscript-slice tuple elements. -/
def cleanAstSep : List PyAst → String
  | [] => ""
  | [t] => cleanAst t
  | t :: ts => cleanAst t ++ ", " ++ cleanAstSep ts

/-- Concatenated rendering of the children of a node handled by
`generic_visit`. -/
def cleanAstCat : List PyAst → String
  | [] => ""
  | t :: ts => cleanAst t ++ cleanAstCat ts

end

/-- Join a list of strings with a comma-space separator, in order (the
semantics of appending `', '` before every element except the first). -/
def joinCommaSep : List String → String
  | [] => ""
  | [x] => x
  | x :: xs => x ++ ", " ++ joinCommaSep xs

/-- Concatenation of a list of strings, in order. -/
def joinCat : List String → String
  | [] => ""
  | x :: xs => x ++ joinCat xs

/-- The argument list of a subscript slice: the elements when the slice is a
tuple, the slice itself otherwise. -/
def subscriptArgs : PyAst → List PyAst
  | .tupleE es => es
  | t => [t]

/-! ## The pattern-based fallback cleaner (`clean_annotation_pattern`)

Each regex substitution of the source is modelled by a scanner over the
character list with the leftmost, non-overlapping semantics of `re.sub`
(the scan continues after a replaced match and never rescans the
replacement).  The scanners take a fuel argument equal to the length of the
scanned list; every recursive call strictly shrinks the list, so the fuel is
never exhausted on a non-empty list. -/

/-- One `re.sub(pat, '', s)` pass for a literal pattern `pat`. -/
def removeOccFuel : Nat → List Char → List Char → List Char
  | 0, _, s => s
  | _, _, [] => []
  | fuel + 1, pat, c :: rest =>
    if pat.isPrefixOf (c :: rest) then
      removeOccFuel fuel pat ((c :: rest).drop pat.length)
    else
      c :: removeOccFuel fuel pat rest

/-- Remove every occurrence of the literal `pat` (patterns 1-4 of
`clean_annotation_pattern`, whose regexes are escaped literals). -/
def removeOcc (pat : String) (s : List Char) : List Char :=
  removeOccFuel s.length pat.data s

/-- Pattern 5 of `clean_annotation_pattern`:
one `re.sub` pass of `[a-zA-Z_][a-zA-Z0-9_]*\.([A-Z][a-zA-Z0-9_]*)` with
replacement `\1` (`module.Class` collapses to `Class`). -/
def rule5Fuel : Nat → List Char → List Char
  | 0, s => s
  | _, [] => []
  | fuel + 1, c :: rest =>
    if identStart c then
      let run := (c :: rest).takeWhile wordChar
      let after := (c :: rest).dropWhile wordChar
      match after with
      | '.' :: d :: rest2 =>
        if d.isUpper then
          (d :: rest2.takeWhile wordChar) ++ rule5Fuel fuel (rest2.dropWhile wordChar)
        else
          run ++ '.' :: rule5Fuel fuel (d :: rest2)
      | _ => run ++ rule5Fuel fuel after
    else
      c :: rule5Fuel fuel rest

/-- Match `<class '(\w+)'>` at the head of the list; on success return the
group and the remainder after the match. -/
def matchClass1At (s : List Char) : Option (List Char × List Char) :=
  if "<class '".data.isPrefixOf s then
    let r := s.drop 8
    let w := r.takeWhile wordChar
    if w = [] then none
    else
      match r.dropWhile wordChar with
      | '\'' :: '>' :: rest => some (w, rest)
      | _ => none
  else none

/-- Pattern 6: one `re.sub` pass of `<class '(\w+)'>` with replacement `\1`. -/
def rule6Fuel : Nat → List Char → List Char
  | 0, s => s
  | _, [] => []
  | fuel + 1, c :: rest =>
    match matchClass1At (c :: rest) with
    | some (w, rem) => w ++ rule6Fuel fuel rem
    | none => c :: rule6Fuel fuel rest

/-- Match `<class '(\w+\.\w+)'>` at the head of the list; on success return
the group and the remainder after the match. -/
def matchClass2At (s : List Char) : Option (List Char × List Char) :=
  if "<class '".data.isPrefixOf s then
    let r := s.drop 8
    let w1 := r.takeWhile wordChar
    if w1 = [] then none
    else
      match r.dropWhile wordChar with
      | '.' :: r2 =>
        let w2 := r2.takeWhile wordChar
        if w2 = [] then none
        else
          match r2.dropWhile wordChar with
          | '\'' :: '>' :: rest => some (w1 ++ '.' :: w2, rest)
          | _ => none
      | _ => none
  else none

/-- Pattern 7: one `re.sub` pass of `<class '(\w+\.\w+)'>` with replacement
`\1`. -/
def rule7Fuel : Nat → List Char → List Char
  | 0, s => s
  | _, [] => []
  | fuel + 1, c :: rest =>
    match matchClass2At (c :: rest) with
    | some (w, rem) => w ++ rule7Fuel fuel rem
    | none => c :: rule7Fuel fuel rest

/-- The `clean_annotation_pattern` function of utils.py: the seven
substitution passes applied in order. -/
def clean_annotation_pattern (s : String) : String :=
  let c1 := removeOcc "typing." s.data
  let c2 := removeOcc "__main__." c1
  let c3 := removeOcc "builtins." c2
  let c4 := removeOcc "collections.abc." c3
  let c5 := rule5Fuel c4.length c4
  let c6 := rule6Fuel c5.length c5
  let c7 := rule7Fuel c6.length c6
  ⟨c7⟩

/-! ## The normalizer facade -/

/-- The `clean_annotation_ast` function of utils.py.  The external
`ast.parse` step is the parameter `p`; `none` models the `SyntaxError` /
`ValueError` that the `except` clause absorbs by falling back to the
pattern-based cleaner. -/
def clean_annotation_ast (p : String → Option PyAst) (s : String) : String :=
  match p s with
  | some t => cleanAst t
  | none => clean_annotation_pattern s

/-- The `format_annotation_with_color` function of utils.py. -/
def format_annotation_with_color (anno : String) (color : String) : String :=
  "<fg=" ++ color ++ ">(" ++ anno ++ ")</>"

/-- The `clean_annotation_string` function of utils.py on an input whose
`str()` form is `s`; the outer `try`/`except` cannot fire in the embedding
because `clean_annotation_ast` is total, which is exactly the guarantee the
source's fallback structure provides. -/
def clean_annotation_string (p : String → Option PyAst) (s : String)
    (color : Option String) : String :=
  let cleaned := clean_annotation_ast p s
  match color with
  | some col => format_annotation_with_color cleaned col
  | none => cleaned

/-- Modelled from the spec: the Expression Parser component (spec sections
2 and 4.1, "attempt to parse it as a single expression") is CPython's
`ast.parse(s, mode='eval')`, which is external to `src/`.  This table
records the parse result CPython produces on each concrete input used in
this development; every other string is treated as a parse failure.  In
particular the `<class '...'>` repr wrappers, the empty string and the
garbage string are syntax errors, while `pkg.widget` parses as an attribute
chain and `foo(x)` parses as a call. -/
def pyParse : String → Option PyAst
  | "outer.inner.MyType" =>
      some (.attribute (.attribute (.name "outer") "inner") "MyType")
  | "MyType" => some (.name "MyType")
  | "Container[KeyT, ValT]" =>
      some (.subscript (.name "Container")
        (.tupleE [.name "KeyT", .name "ValT"]))
  | "foo(x)" => some (.call (.name "foo") [.name "x"])
  | "List[\"X\"]" => some (.subscript (.name "List") (.constant (.pstr "X")))
  | "pkg.widget" => some (.attribute (.name "pkg") "widget")
  | _ => none

/-! ## Python-dict model

A Python `dict` with string keys and values, as an ordered association list:
assignment replaces the value in place when the key is present and appends
otherwise, matching insertion-order semantics. -/

/-- Dict lookup (`d[k]` / `k in d`). -/
def dictGet : List (String × String) → String → Option String
  | [], _ => none
  | pr :: rest, k => if pr.1 = k then some pr.2 else dictGet rest k

/-- Dict assignment `d[k] = v`. -/
def dictSet : List (String × String) → String → String → List (String × String)
  | [], k, v => [(k, v)]
  | pr :: rest, k, v => if pr.1 = k then (k, v) :: rest else pr :: dictSet rest k v

/-! ## The manual docstring extractor (`_parse_docstring_manual`)

The google/sphinx regex is
`:param\s+(\w+):\s*(.+?)(?=\n\s*:|\n\s*\n|$)` with `re.MULTILINE | re.DOTALL`.
Because of `re.MULTILINE`, the `$` alternative of the lookahead already
succeeds just before every newline, so the lazy description group always ends
at the first newline after at least one character (or at the end of the
text); the greedy `\s*` before it gives back a single trailing whitespace
character when nothing else remains. -/

/-- Match the `:param` pattern anchored at the head of the list; on success
return the name group, the raw description group and the remainder after the
match (the lookahead is zero-width). -/
def matchParamAt (s : List Char) : Option ((String × String) × List Char) :=
  if ":param".data.isPrefixOf s then
    let r1 := s.drop 6
    if r1.takeWhile wsChar = [] then none
    else
      let r2 := r1.dropWhile wsChar
      let nm := r2.takeWhile wordChar
      if nm = [] then none
      else
        match r2.dropWhile wordChar with
        | ':' :: r4 =>
          let ws2 := r4.takeWhile wsChar
          let r5 := r4.dropWhile wsChar
          match r5 with
          | [] =>
            (match ws2.getLast? with
             | some ch => some ((⟨nm⟩, ⟨[ch]⟩), ([] : List Char))
             | none => none)
          | _ :: _ =>
            let d := r5.takeWhile (fun c => !(c = '\n'))
            let rem := r5.dropWhile (fun c => !(c = '\n'))
            some ((⟨nm⟩, ⟨d⟩), rem)
        | _ => none
  else none

/-- `re.finditer` of the `:param` pattern: leftmost non-overlapping matches,
scanning resumes after each match.  The fuel starts at the length of the
list; every step strictly shrinks the list. -/
def findParamMatchesFuel : Nat → List Char → List (String × String)
  | 0, _ => []
  | _ + 1, [] => []
  | fuel + 1, c :: rest =>
    match matchParamAt (c :: rest) with
    | some (pr, rem) => pr :: findParamMatchesFuel fuel rem
    | none => findParamMatchesFuel fuel rest

/-- All `(name, raw description)` matches of the `:param` pattern. -/
def findParamMatches (s : List Char) : List (String × String) :=
  findParamMatchesFuel s.length s

/-- The first (google-style) loop: every match assigns unconditionally. -/
def passOverwrite : List (String × String) → List (String × String) → List (String × String)
  | [], acc => acc
  | pr :: ms, acc => passOverwrite ms (dictSet acc pr.1 (pyStrip pr.2))

/-- The second (sphinx-style) and third (numpy-style) loops: a match assigns
only when the name is not already present. -/
def passFillAbsent : List (String × String) → List (String × String) → List (String × String)
  | [], acc => acc
  | pr :: ms, acc =>
      passFillAbsent ms
        (if (dictGet acc pr.1).isNone then dictSet acc pr.1 (pyStrip pr.2) else acc)

/-! ### The numpy-style section

Regex `Parameters\n-+\n(.*?)(?=\n\s*\n|\n\s*[A-Z]|\Z)` with `re.DOTALL`
(`re.search`, first match), then inside the section
`(\w+)\s*:\s*[^\n]*\n\s*(.+?)(?=\n\s*\w+\s*:|$)` with `re.DOTALL`
(`re.finditer`). -/

/-- The section-terminating lookahead `(?=\n\s*\n|\n\s*[A-Z]|\Z)` holds at
this position. -/
def numpySectionStop (tl : List Char) : Bool :=
  match tl with
  | [] => true
  | '\n' :: t =>
      (t.takeWhile wsChar).contains '\n' ||
      (match t.dropWhile wsChar with
       | c :: _ => c.isUpper
       | [] => false)
  | _ => false

/-- The lazy `(.*?)` group: everything up to the first position where the
section-terminating lookahead holds (the `\Z` alternative always holds at the
end). -/
def takeUntilSectionStop : List Char → List Char
  | [] => []
  | c :: rest =>
      if numpySectionStop (c :: rest) then []
      else c :: takeUntilSectionStop rest

/-- Match the section header `Parameters\n-+\n` anchored at the head; return
the remainder after the header. -/
def matchNumpyHeaderAt (s : List Char) : Option (List Char) :=
  if "Parameters\n".data.isPrefixOf s then
    let r := s.drop 11
    if r.takeWhile (fun c => c = '-') = [] then none
    else
      match r.dropWhile (fun c => c = '-') with
      | '\n' :: rest => some rest
      | _ => none
  else none

/-- `re.search` of the section regex: the group of the leftmost match, if
any. -/
def findNumpySection : List Char → Option (List Char)
  | [] => none
  | c :: rest =>
    match matchNumpyHeaderAt (c :: rest) with
    | some body => some (takeUntilSectionStop body)
    | none => findNumpySection rest

/-- The description-terminating lookahead `(?=\n\s*\w+\s*:|$)` holds at this
position (without `re.MULTILINE`, `$` holds at the end of the section and
just before a final newline). -/
def numpyDescStop (tl : List Char) : Bool :=
  match tl with
  | [] => true
  | ['\n'] => true
  | '\n' :: t =>
      let r1 := t.dropWhile wsChar
      decide (r1.takeWhile wordChar ≠ []) &&
      (match (r1.dropWhile wordChar).dropWhile wsChar with
       | ':' :: _ => true
       | _ => false)
  | _ => false

/-- The lazy `(.+?)` group: the shortest non-empty prefix after which `stop`
holds, together with the remainder. -/
def takeDescUntil (stop : List Char → Bool) : List Char → Option (List Char × List Char)
  | [] => none
  | c :: tl =>
      if stop tl then some ([c], tl)
      else
        match takeDescUntil stop tl with
        | some (d, r) => some (c :: d, r)
        | none => none

/-- The suffix after the last newline of the list, when the list contains
one. -/
def afterLastNL : List Char → Option (List Char)
  | [] => none
  | '\n' :: t =>
      (match afterLastNL t with
       | some r => some r
       | none => some t)
  | _ :: t => afterLastNL t

/-- Match the numpy per-parameter pattern anchored at the head of the
section.  The `\s*[^\n]*\n` part is greedy: the whitespace run after the
colon is consumed whole and the match ends at the first newline after it;
when no such newline exists the engine backtracks into the whitespace run
down to its last newline. -/
def matchNumpyAt (s : List Char) : Option ((String × String) × List Char) :=
  let nm := s.takeWhile wordChar
  if nm = [] then none
  else
    match (s.dropWhile wordChar).dropWhile wsChar with
    | ':' :: r2 =>
      let w := r2.takeWhile wsChar
      let afterW := r2.dropWhile wsChar
      let t := afterW.takeWhile (fun c => !(c = '\n'))
      let afterT := afterW.dropWhile (fun c => !(c = '\n'))
      let r3? : Option (List Char) :=
        match afterT with
        | '\n' :: r => some r
        | _ =>
          (match afterLastNL w with
           | some r => some (r ++ t)
           | none => none)
      match r3? with
      | none => none
      | some r3 =>
        let w2 := r3.takeWhile wsChar
        let r4 := r3.dropWhile wsChar
        match r4 with
        | [] =>
          (match w2.getLast? with
           | some ch => some ((⟨nm⟩, ⟨[ch]⟩), ([] : List Char))
           | none => none)
        | _ :: _ =>
          match takeDescUntil numpyDescStop r4 with
          | some (d, rem) => some ((⟨nm⟩, ⟨d⟩), rem)
          | none => none
    | _ => none

/-- `re.finditer` of the numpy per-parameter pattern over the section. -/
def numpyMatchesFuel : Nat → List Char → List (String × String)
  | 0, _ => []
  | _ + 1, [] => []
  | fuel + 1, c :: rest =>
    match matchNumpyAt (c :: rest) with
    | some (pr, rem) => pr :: numpyMatchesFuel fuel rem
    | none => numpyMatchesFuel fuel rest

/-- All `(name, raw description)` matches inside a numpy section. -/
def numpyParamMatches (sec : List Char) : List (String × String) :=
  numpyMatchesFuel sec.length sec

/-- The `_parse_docstring_manual` function of utils.py: the google pass
(unconditional assignment), the sphinx pass over the identical pattern
(fills only absent names), then the numpy-section pass (fills only absent
names). -/
def parse_docstring_manual (docstring : String) : List (String × String) :=
  let ms := findParamMatches docstring.data
  let m1 := passOverwrite ms []
  let m2 := passFillAbsent ms m1
  match findNumpySection docstring.data with
  | some sec => passFillAbsent (numpyParamMatches sec) m2
  | none => m2

/-! ## The docstring dispatcher (`parse_docstring_params`) -/

/-- The `DocstringStyle` enumeration of utils.py. -/
inductive DocstringStyle where
  | google
  | numpy
  | sphinx
  | auto
  deriving DecidableEq

/-- A parameter entry as returned by the external `docstring_parser`
library: an argument name and an optional description. -/
structure DocParam where
  arg_name : String
  description : Option String

/-- The extraction loop of `parse_docstring_params` over the structured
parse result: keep parameters whose description is truthy (not `None`, not
empty), stripped; later entries with the same name overwrite. -/
def extractStructuredParams : List DocParam → List (String × String) → List (String × String)
  | [], acc => acc
  | p :: ps, acc =>
      extractStructuredParams ps
        (match p.description with
         | some d => if d = "" then acc else dictSet acc p.arg_name (pyStrip d)
         | none => acc)

/-- The `parse_docstring_params` function of utils.py.  The external
`docstring_parser.parse` call is the parameter `structured`; `none` models
the exception its `except` clause absorbs by falling back to the manual
extractor.  The `style` argument is received (defaulting to `auto` in the
source) and, as in the source body, never consulted. -/
def parse_docstring_params (structured : String → Option (List DocParam))
    (docstring : String) (style : DocstringStyle) : List (String × String) :=
  if docstring = "" then []
  else
    match structured docstring with
    | some ps => extractStructuredParams ps []
    | none => parse_docstring_manual docstring

/-! ## Helper lemmas -/

theorem cleanAstSep_eq_join (es : List PyAst) :
    cleanAstSep es = joinCommaSep (es.map cleanAst) := by
  induction es with
  | nil => rfl
  | cons t ts ih =>
    cases ts with
    | nil => rfl
    | cons u us => simp [cleanAstSep, joinCommaSep, ih]

theorem cleanAstCat_eq_join (es : List PyAst) :
    cleanAstCat es = joinCat (es.map cleanAst) := by
  induction es with
  | nil => rfl
  | cons t ts ih => simp [cleanAstCat, joinCat, ih]

theorem dictGet_dictSet_ne (d : List (String × String)) (k k' v : String)
    (h : k' ≠ k) : dictGet (dictSet d k' v) k = dictGet d k := by
  induction d with
  | nil => simp [dictSet, dictGet, h]
  | cons pr rest ih =>
    by_cases hp : pr.1 = k'
    · simp [dictSet, hp, dictGet, h, hp.symm ▸ h]
    · simp [dictSet, hp, dictGet, ih]

/-! ## Claim theorems -/

/-- C6: every dotted-attribute-chain input renders as only the final segment
of the chain: whenever the parser returns an attribute node, the normalizer
returns its `attr` field, dropping every prefix unconditionally. -/
theorem c6_qualifier_stripping :
    ∀ (p : String → Option PyAst) (s : String) (v : PyAst) (a : String),
      p s = some (PyAst.attribute v a) → clean_annotation_ast p s = a := by
  intro p s v a h
  simp [clean_annotation_ast, h, cleanAst]

/-- C6 witness: `normalize("outer.inner.MyType") = "MyType"`. -/
theorem c6_qualifier_stripping_witness :
    clean_annotation_ast pyParse "outer.inner.MyType" = "MyType" :=
  c6_qualifier_stripping pyParse _ _ _ rfl

/-- C7: a subscript expression renders as the normalized base, then `[`,
then the normalized arguments joined by a comma-space separator in their
original order, then `]` (a non-tuple slice is the one-argument case). -/
theorem c7_subscript_rendering :
    ∀ (p : String → Option PyAst) (s : String) (b sl : PyAst),
      p s = some (PyAst.subscript b sl) →
      clean_annotation_ast p s =
        cleanAst b ++ "[" ++ joinCommaSep ((subscriptArgs sl).map cleanAst) ++ "]" := by
  intro p s b sl h
  cases sl <;>
    simp [clean_annotation_ast, h, cleanAst, subscriptArgs, cleanAstSep_eq_join,
      joinCommaSep]

/-- C7 witness: `normalize("Container[KeyT, ValT]") = "Container[KeyT, ValT]"`. -/
theorem c7_subscript_rendering_witness :
    clean_annotation_ast pyParse "Container[KeyT, ValT]" = "Container[KeyT, ValT]" := by
  have h := c7_subscript_rendering pyParse "Container[KeyT, ValT]"
    (PyAst.name "Container") (PyAst.tupleE [PyAst.name "KeyT", PyAst.name "ValT"]) rfl
  exact h.trans (by decide)

/-- C4 counterexample: the AST path does not fail on the call-shaped input
`foo(x)`; it renders `foox`, which differs from the pattern-fallback result
`foo(x)`, so the result is produced by a partial AST rendering and not by
the fallback. -/
theorem c4_call_shape_cex :
    clean_annotation_ast pyParse "foo(x)" = "foox" ∧
    clean_annotation_pattern "foo(x)" = "foo(x)" ∧
    ("foox" : String) ≠ "foo(x)" :=
  ⟨by decide, by decide, by decide⟩

/-- C4 amended: on a call-shaped input the AST path succeeds and the
visitor's `generic_visit` renders the call as the concatenation of the
rendered function and arguments; the pattern fallback runs only when
`ast.parse` raises. -/
theorem c4_call_shape_amended :
    ∀ (p : String → Option PyAst) (s : String) (f : PyAst) (args : List PyAst),
      p s = some (PyAst.call f args) →
      clean_annotation_ast p s = cleanAst f ++ joinCat (args.map cleanAst) := by
  intro p s f args h
  simp [clean_annotation_ast, h, cleanAst, cleanAstCat_eq_join]

/-- C4 witness: `clean_annotation_ast("foo(x)")` goes through the AST path
and renders `foo` next to `x`. -/
theorem c4_call_shape_witness :
    clean_annotation_ast pyParse "foo(x)" =
      cleanAst (PyAst.name "foo") ++ joinCat ([PyAst.name "x"].map cleanAst) :=
  c4_call_shape_amended pyParse _ _ _ rfl

/-- C5 counterexample: `normalize` does not keep the source's double-quote
convention: `List["X"]` renders as `List['X']`, because `visit_Constant`
uses `repr`, which prefers single quotes. -/
theorem c5_literal_repr_cex :
    clean_annotation_ast pyParse "List[\"X\"]" = "List['X']" ∧
    ("List['X']" : String) ≠ "List[\"X\"]" :=
  ⟨by decide, by decide⟩

/-- C5 amended: a string literal inside an expression renders as its `repr`,
which chooses single quotes whenever the value contains no single quote —
the source's quoting convention is not preserved. -/
theorem c5_literal_repr_amended :
    (∀ (p : String → Option PyAst) (s : String) (b : PyAst) (v : String),
        p s = some (PyAst.subscript b (PyAst.constant (PyConst.pstr v))) →
        clean_annotation_ast p s = cleanAst b ++ "[" ++ pyReprStr v ++ "]") ∧
    (∀ v : String, v.data.contains '\'' = false →
        (pyReprStr v).data.head? = some '\'' ∧
        (pyReprStr v).data.getLast? = some '\'') := by
  constructor
  · intro p s b v h
    simp [clean_annotation_ast, h, cleanAst, pyRepr]
  · intro v hv
    have hq : pyReprStr v =
        ⟨'\'' :: ((v.data.map (pyEscapeChar '\'')).flatten ++ ['\''])⟩ := by
      simp only [pyReprStr]
      rw [hv]
      simp
    rw [hq]
    refine ⟨rfl, ?_⟩
    have hsplit : '\'' :: ((v.data.map (pyEscapeChar '\'')).flatten ++ ['\'']) =
        ('\'' :: (v.data.map (pyEscapeChar '\'')).flatten) ++ ['\''] := rfl
    show ('\'' :: ((v.data.map (pyEscapeChar '\'')).flatten ++ ['\''])).getLast? = some '\''
    rw [hsplit]
    exact List.getLast?_concat _

/-- C5 witness: `List["X"]` renders through the AST path with the literal
re-rendered by `repr`, whose quote choice for `"X"` is a single quote. -/
theorem c5_literal_repr_witness :
    clean_annotation_ast pyParse "List[\"X\"]" =
      cleanAst (PyAst.name "List") ++ "[" ++ pyReprStr "X" ++ "]" ∧
    (pyReprStr "X").data.head? = some '\'' :=
  ⟨c5_literal_repr_amended.1 pyParse _ _ _ rfl,
   (c5_literal_repr_amended.2 "X" rfl).1⟩

/-- C1 counterexample: normalization is not idempotent.  For
`x = "<class 'pkg.widget'>"` the first application falls back to the
pattern cleaner, whose two-segment wrapper rule yields `pkg.widget`; the
second application parses that as an attribute chain and yields `widget`. -/
theorem c1_not_idempotent_cex :
    clean_annotation_ast pyParse (clean_annotation_ast pyParse "<class 'pkg.widget'>") ≠
      clean_annotation_ast pyParse "<class 'pkg.widget'>" := by
  decide

/-- C1 amended: idempotence fails for general strings (see the
counterexample) but holds for inputs the parser maps to a dotted-attribute
chain: the result is the final identifier, which re-parses as a bare name
and renders to itself. -/
theorem c1_idempotent_on_dotted_chains :
    ∀ (p : String → Option PyAst) (s : String) (v : PyAst) (a : String),
      p s = some (PyAst.attribute v a) → p a = some (PyAst.name a) →
      clean_annotation_ast p (clean_annotation_ast p s) =
        clean_annotation_ast p s := by
  intro p s v a h1 h2
  simp [clean_annotation_ast, h1, cleanAst, h2]

/-- C1 witness: the two hypotheses hold for `outer.inner.MyType` under
CPython's parse, and the normalization of that input is idempotent. -/
theorem c1_idempotent_witness :
    clean_annotation_ast pyParse (clean_annotation_ast pyParse "outer.inner.MyType") =
      clean_annotation_ast pyParse "outer.inner.MyType" :=
  c1_idempotent_on_dotted_chains pyParse _ _ _ rfl rfl

/-- C2 counterexample: `normalize("<class 'pkg.Widget'>")` is `Widget`, not
`pkg.Widget`: pattern 5 collapses `pkg.Widget` inside the wrapper before
the wrapper rules run. -/
theorem c2_repr_wrapper_cex :
    clean_annotation_ast pyParse "<class 'pkg.Widget'>" = "Widget" ∧
    ("Widget" : String) ≠ "pkg.Widget" :=
  ⟨by decide, by decide⟩

/-- C2 amended: `normalize("<class 'int'>") = "int"`, and the two-segment
wrapper keeps its internal dot only when the second segment does not start
with an uppercase letter (`<class 'pkg.widget'>` → `pkg.widget`); when it
does, the `module.Class` rule collapses it first
(`<class 'pkg.Widget'>` → `Widget`). -/
theorem c2_repr_wrapper_amended :
    ∀ p : String → Option PyAst,
      p "<class 'int'>" = none →
      p "<class 'pkg.Widget'>" = none →
      p "<class 'pkg.widget'>" = none →
      clean_annotation_ast p "<class 'int'>" = "int" ∧
      clean_annotation_ast p "<class 'pkg.Widget'>" = "Widget" ∧
      clean_annotation_ast p "<class 'pkg.widget'>" = "pkg.widget" := by
  intro p h1 h2 h3
  refine ⟨?_, ?_, ?_⟩ <;> simp only [clean_annotation_ast, h1, h2, h3] <;> decide

/-- C2 witness: the three parse-failure hypotheses hold for CPython's parse
on the wrapper strings. -/
theorem c2_repr_wrapper_witness :
    clean_annotation_ast pyParse "<class 'int'>" = "int" ∧
    clean_annotation_ast pyParse "<class 'pkg.Widget'>" = "Widget" ∧
    clean_annotation_ast pyParse "<class 'pkg.widget'>" = "pkg.widget" :=
  c2_repr_wrapper_amended pyParse rfl rfl rfl

/-- C3 counterexample: in the manual extractor, a docstring with
`:param x: first` followed by `:param x: second` maps `x` to `second`, not
`first`: both lines match in the first pass, whose assignment is
unconditional, so the later match overwrites the earlier one. -/
theorem c3_param_precedence_cex :
    dictGet (parse_docstring_manual ":param x: first\n:param x: second") "x" =
      some "second" ∧ (some "second" : Option String) ≠ some "first" :=
  ⟨by decide, by decide⟩

/-- C3 amended: within the first pass the last match for a name wins (the
concrete docstring maps `x` to `second`); only the later sphinx and numpy
passes fill gaps and never overwrite an entry that is already present. -/
theorem c3_param_precedence_amended :
    dictGet (parse_docstring_manual ":param x: first\n:param x: second") "x" =
      some "second" ∧
    (∀ (ms acc : List (String × String)) (k v : String),
        dictGet acc k = some v → dictGet (passFillAbsent ms acc) k = some v) := by
  constructor
  · decide
  · intro ms
    induction ms with
    | nil => intro acc k v h; simpa [passFillAbsent] using h
    | cons pr ms ih =>
      intro acc k v h
      show dictGet (passFillAbsent ms
        (if (dictGet acc pr.1).isNone then dictSet acc pr.1 (pyStrip pr.2) else acc)) k =
          some v
      apply ih
      by_cases hk : pr.1 = k
      · have hfalse : (dictGet acc pr.1).isNone = false := by rw [hk, h]; rfl
        simp [hfalse, h]
      · cases hnone : (dictGet acc pr.1).isNone
        · simp [hnone, h]
        · simp only [hnone, if_true]
          rw [dictGet_dictSet_ne _ _ _ _ hk]
          exact h

/-- C3 witness: an entry already present survives a fill-absent pass. -/
theorem c3_param_precedence_witness :
    dictGet (passFillAbsent [("y", "d")] [("x", "v")]) "x" = some "v" :=
  c3_param_precedence_amended.2 [("y", "d")] [("x", "v")] "x" "v" (by decide)

/-- C8: both public operations are total.  In the embedding, the exceptions
of the external parsers are the `none` cases of their parameters, and the
theorem exhibits that for every input (including garbage) each operation
returns a value through one of its two defined paths — the fallback absorbs
every failure, so no input terminates the caller abnormally. -/
theorem c8_totality :
    (∀ (p : String → Option PyAst) (s : String),
        (∃ t, p s = some t ∧ clean_annotation_string p s none = cleanAst t) ∨
        (p s = none ∧
          clean_annotation_string p s none = clean_annotation_pattern s)) ∧
    (∀ (structured : String → Option (List DocParam)) (d : String)
        (sty : DocstringStyle),
        (d = "" ∧ parse_docstring_params structured d sty = []) ∨
        (∃ ps, structured d = some ps ∧
          parse_docstring_params structured d sty = extractStructuredParams ps []) ∨
        (structured d = none ∧
          parse_docstring_params structured d sty = parse_docstring_manual d)) ∧
    clean_annotation_string pyParse "\x7b\x7b\x7bnot valid" none =
      "\x7b\x7b\x7bnot valid" := by
  refine ⟨?_, ?_, ?_⟩
  · intro p s
    cases h : p s with
    | some t =>
        exact Or.inl ⟨t, rfl, by simp [clean_annotation_string, clean_annotation_ast, h]⟩
    | none =>
        exact Or.inr ⟨rfl, by simp [clean_annotation_string, clean_annotation_ast, h]⟩
  · intro structured d sty
    by_cases hd : d = ""
    · exact Or.inl ⟨hd, by simp [parse_docstring_params, hd]⟩
    · cases h : structured d with
      | some ps =>
          exact Or.inr (Or.inl ⟨ps, rfl, by simp [parse_docstring_params, hd, h]⟩)
      | none =>
          exact Or.inr (Or.inr ⟨rfl, by simp [parse_docstring_params, hd, h]⟩)
  · decide

/-- C9: empty inputs are not errors: `extract_params("", s)` is the empty
mapping for every style tag, and `normalize("")` is `""` (the empty string
is a parse failure and no fallback pattern matches it). -/
theorem c9_empty_inputs :
    (∀ (structured : String → Option (List DocParam)) (sty : DocstringStyle),
        parse_docstring_params structured "" sty = []) ∧
    (∀ p : String → Option PyAst, p "" = none →
        clean_annotation_ast p "" = "") := by
  constructor
  · intro structured sty
    simp [parse_docstring_params]
  · intro p h
    simp only [clean_annotation_ast, h]
    decide

/-- C9 witness: both parts at concrete instantiations (CPython's parse fails
on the empty string). -/
theorem c9_empty_inputs_witness :
    parse_docstring_params (fun _ => none) "" DocstringStyle.auto = [] ∧
    clean_annotation_ast pyParse "" = "" :=
  ⟨c9_empty_inputs.1 (fun _ => none) DocstringStyle.auto,
   c9_empty_inputs.2 pyParse rfl⟩

/-- C10: the style argument has no influence on docstring extraction: the
body of `parse_docstring_params` never consults it on either path, so any
two style tags give identical results for every docstring and every
behaviour of the structured parser. -/
theorem c10_style_independent :
    ∀ (structured : String → Option (List DocParam)) (d : String)
      (s1 s2 : DocstringStyle),
      parse_docstring_params structured d s1 = parse_docstring_params structured d s2 := by
  intro structured d s1 s2
  rfl
